import Mathlib

/-!
Verification of the aptitude-Q form-component repository.

Shallow embedding of the TypeScript sources of the repository:

* `packages/ui/src/input.tsx`  — the polymorphic `Input` control, its
  `isTextareaProps` type guard, `togglePasswordVisibility` / `actualType`
  logic, and the `InputDemo` page (`handleInputChange`, `validateForm`);
* `apps/web/app/(auth)/sign-in/page.tsx` — the `Signin` and `Signup`
  form pages (`handleChange`, `handleSubmit`);
* the unnamed password-input file — `calculatePasswordStrength`, the
  `PasswordInput` control and the `PasswordInputDemo` page
  (`validatePasswords`);
* the unnamed button file — the `Button` control (`handleClick`,
  loading/disabled gating, leading-decoration selection).

Strings are modelled as Lean `String` (the sources only ever inspect
code points, never UTF-16 surrogate behaviour); JavaScript objects used
as string-keyed records (`formData`, `errors`) are modelled as ordered
association lists, matching JS object key-insertion order, with
`recordGet`/`recordSet` mirroring property read and spread-update.
-/

set_option autoImplicit false

/-- the JavaScript `\s` character class (whitespace as used by `String.trim`
and the `\S` regex class): tab, LF, VT, FF, CR, space, NBSP, and the
Unicode space separators, line/paragraph separators and BOM. -/
def isJsWhitespace (c : Char) : Bool :=
  c == ' ' || c == '\t' || c == '\n' || c == '\r' || c == '\x0b' || c == '\x0c' ||
  c == '\u00A0' || c == '\u1680' || ('\u2000' ≤ c && c ≤ '\u200A') ||
  c == '\u2028' || c == '\u2029' || c == '\u202F' || c == '\u205F' ||
  c == '\u3000' || c == '\uFEFF'

/-- The regex class `\S`: any character that is not JavaScript whitespace. -/
def isNonSpace (c : Char) : Bool := !(isJsWhitespace c)

/-- JavaScript `!s.trim()`: the string trims to the empty string, i.e.
every character is whitespace.  The validators use this as their
"field is missing" test. -/
def isBlank (s : String) : Bool := s.data.all isJsWhitespace

/-! Section: the email regex, written in the sources as backslash-S plus, at
sign, backslash-S plus, dot, backslash-S plus.

`regex.test(s)` searches for a match anywhere in `s`.  The matcher below
is a direct structural transcription of the pattern; each function
matches one suffix of the pattern as a *prefix* of its argument
(existentially over backtracking choices), and `emailSearch` tries every
start position. -/

/-- Matches the trailing `\S+` of the pattern as a prefix: the list starts
with a non-space character (the rest of the list is beyond the match). -/
def finalSeg : List Char → Bool
  | [] => false
  | c :: _ => isNonSpace c

/-- Matches `\S*\.\S+` as a prefix: zero or more non-space characters,
a literal dot, then `finalSeg`. -/
def dotTail : List Char → Bool
  | [] => false
  | c :: rest => (c == '.' && finalSeg rest) || (isNonSpace c && dotTail rest)

/-- Matches `\S+\.\S+` as a prefix (the part of the pattern after `@`). -/
def afterAt : List Char → Bool
  | [] => false
  | c :: rest => isNonSpace c && dotTail rest

/-- Matches `\S*@\S+\.\S+` as a prefix: zero or more non-space characters,
a literal `@`, then `afterAt`. -/
def atTail : List Char → Bool
  | [] => false
  | c :: rest => (c == '@' && afterAt rest) || (isNonSpace c && atTail rest)

/-- Matches the whole pattern `\S+@\S+\.\S+` as a prefix. -/
def wholePattern : List Char → Bool
  | [] => false
  | c :: rest => isNonSpace c && atTail rest

/-- Unanchored search: does some suffix start with a match of the pattern? -/
def emailSearch : List Char → Bool
  | [] => false
  | c :: rest => wholePattern (c :: rest) || emailSearch rest

/-- The email regex test on a string — the email-shape check shared by
`Signin.handleSubmit`, `Signup.handleSubmit` and `InputDemo.validateForm`. -/
def emailTest (s : String) : Bool := emailSearch s.data

/-- Every character of the list is non-space. -/
def allNonSpace (l : List Char) : Prop := ∀ c ∈ l, isNonSpace c = true

/-- The description the spec gives of the email pattern, stated independently of
the matcher: the string contains (as a substring, with arbitrary
surroundings `a`/`b`) one or more non-space characters, an `@`, one or
more non-space characters, a `.`, and one or more non-space characters. -/
def matchesEmailPattern (s : String) : Prop :=
  ∃ a x y z b : List Char,
    s.data = a ++ x ++ '@' :: (y ++ '.' :: (z ++ b)) ∧
    x ≠ [] ∧ y ≠ [] ∧ z ≠ [] ∧
    allNonSpace x ∧ allNonSpace y ∧ allNonSpace z

/-! Section: string-keyed records (JS objects). -/

/-- Property read with JS falsy default: `m[k]` is the value at the first
entry with key `k`, or `""` (standing for `undefined`, which the sources
only ever use in boolean position where it coincides with `""`). -/
def recordGet (m : List (String × String)) (k : String) : String :=
  match m with
  | [] => ""
  | p :: rest => if p.1 == k then p.2 else recordGet rest k

/-- Spread-update of a record at key `k`: replace the value at key `k` in place, or append
the new key (JS objects keep first-insertion key order). -/
def recordSet (m : List (String × String)) (k v : String) : List (String × String) :=
  match m with
  | [] => [(k, v)]
  | p :: rest => if p.1 == k then (k, v) :: rest else p :: recordSet rest k v

/-! Section: password strength (`calculatePasswordStrength`). -/

/-- Result record of `calculatePasswordStrength`. -/
structure PasswordStrength where
  score : Nat
  label : String
  color : String
deriving Repr, DecidableEq

/-- Regex test `[a-z]`: the string contains a lowercase ASCII letter. -/
def hasLower (s : String) : Bool := s.data.any fun c => 'a' ≤ c && c ≤ 'z'

/-- Regex test `[A-Z]`: the string contains an uppercase ASCII letter. -/
def hasUpper (s : String) : Bool := s.data.any fun c => 'A' ≤ c && c ≤ 'Z'

/-- Regex test `[0-9]` (also backslash-d in the demo complexity rule): the
string contains an ASCII digit. -/
def hasDigit (s : String) : Bool := s.data.any fun c => '0' ≤ c && c ≤ '9'

/-- Regex test `[^A-Za-z0-9]`: some character outside all three
alphanumeric ranges. -/
def hasSymbol (s : String) : Bool :=
  s.data.any fun c =>
    !(('a' ≤ c && c ≤ 'z') || ('A' ≤ c && c ≤ 'Z') || ('0' ≤ c && c ≤ '9'))

/-- The `score` accumulated by `calculatePasswordStrength` for a
non-empty password: the six conditional increments of the source. -/
def passwordScore (password : String) : Nat :=
  (if password.length ≥ 8 then 25 else 0) +
  (if password.length ≥ 12 then 10 else 0) +
  (if hasLower password then 15 else 0) +
  (if hasUpper password then 15 else 0) +
  (if hasDigit password then 15 else 0) +
  (if hasSymbol password then 20 else 0)

/-- Function `calculatePasswordStrength` from the password-input file: empty input
short-circuits to score 0 with empty label and color; otherwise the score is accumulated and
the label/color band is chosen by thresholds 30/60/80. -/
def calculatePasswordStrength (password : String) : PasswordStrength :=
  if password = "" then ⟨0, "", ""⟩
  else
    let score := passwordScore password
    if score < 30 then ⟨score, "Weak", "bg-red-500"⟩
    else if score < 60 then ⟨score, "Fair", "bg-yellow-500"⟩
    else if score < 80 then ⟨score, "Good", "bg-blue-500"⟩
    else ⟨score, "Strong", "bg-green-500"⟩

/-! Section: the `Input` control (packages/ui/src/input.tsx). -/

/-- The `InputType` union of the eight input-kind tags (seven single-line
kinds plus textarea). -/
inductive InputKind
  | text | email | password | number | tel | url | search | textarea
deriving Repr, DecidableEq

/-- The `InputVariant` union. -/
inductive InputVariant
  | default | filled | outline | underline | gradient
deriving Repr, DecidableEq

/-- The `InputSize` union (and the identical `ButtonSize`). -/
inductive InputSize
  | xs | sm | md | lg | xl
deriving Repr, DecidableEq

/-- The configuration surface of the `Input` component, flattened the way
the JS runtime sees the `StandardInputProps | TextareaProps` union: a
record with a `type` discriminant plus the common flags (decorative slots
are modelled by their presence, error text by a string where `""` is
falsy/absent, textarea-only attributes as options). -/
structure InputConfig where
  type : InputKind
  variant : InputVariant
  size : InputSize
  label : Option String
  placeholder : Option String
  helperText : Option String
  error : String
  disabled : Bool
  required : Bool
  fullWidth : Bool
  leftIcon : Bool
  rightIcon : Bool
  rows : Option Nat
  resize : Option Bool
deriving Repr, DecidableEq

/-- The type guard `isTextareaProps`: `props.type === 'textarea'`. -/
def isTextareaProps (props : InputConfig) : Bool :=
  props.type == InputKind.textarea

/-- The two mutually exclusive render paths of `renderInput`. -/
inductive RenderedControl
  | singleLine | multiLine
deriving Repr, DecidableEq

/-- Dispatch of `renderInput`: one discrimination on the tag chooses `<textarea>`
(multi-line) or `<input>` (single-line). -/
def renderInput (props : InputConfig) : RenderedControl :=
  if isTextareaProps props then RenderedControl.multiLine
  else RenderedControl.singleLine

/-- Handler `togglePasswordVisibility`, i.e. `setShowPassword(!showPassword)`, as the
transition it induces on the `showPassword` interaction state
(initialised to `false` by `useState<boolean>(false)`).  Identical in
`Input` and `PasswordInput`. -/
def togglePasswordVisibility (showPassword : Bool) : Bool := !showPassword

/-- Derived `actualType` from `Input`:
`type === 'password' && showPassword ? 'text' : type`, recomputed on
every render from the current `showPassword` state. -/
def actualType (type : InputKind) (showPassword : Bool) : InputKind :=
  if type == InputKind.password && showPassword then InputKind.text else type

namespace PasswordInput

/-- The type attribute of the inner input element of `PasswordInput`: plain
text when `showPassword` holds and masked otherwise, recomputed on every
render. -/
def renderedType (showPassword : Bool) : InputKind :=
  if showPassword then InputKind.text else InputKind.password

end PasswordInput

/-! Section: form-page state and the shared change handler. -/

/-- Page-level form state: the `formData`/`passwords` value record and the
`errors` record (both JS objects keyed by field name). -/
structure FormPageState where
  values : List (String × String)
  errors : List (String × String)
deriving Repr, DecidableEq

/-- The change handler shared (verbatim up to naming) by
`Signin.handleChange`, `Signup.handleChange`, `InputDemo.handleInputChange`
and `PasswordInputDemo.handlePasswordChange`: store the new value under
the key of the field, and if `errors[field]` is truthy overwrite it with `""`;
no validation is performed. -/
def handleChange (field value : String) (st : FormPageState) : FormPageState :=
  ⟨recordSet st.values field value,
   if recordGet st.errors field ≠ "" then recordSet st.errors field ""
   else st.errors⟩

/-- Result of a submit handler: the freshly built `newErrors` object and
whether the success branch (`console.log(... Success ...)`) ran, i.e.
`Object.keys(newErrors).length === 0`. -/
structure SubmitResult where
  newErrors : List (String × String)
  success : Bool
deriving Repr, DecidableEq

namespace Signin

/-- Shape of the `Signin` component `formData`. -/
structure FormData where
  email : String
  password : String
deriving Repr, DecidableEq

/-- Validation part of `Signin.handleSubmit` (building `newErrors` and testing it):
email must be non-blank and match the email regex; password must be
non-blank.  There is no minimum-length rule.  Each rule writes its
message under a fresh distinct key of the initially-empty object, i.e.
appends an entry. -/
def handleSubmit (formData : FormData) : SubmitResult :=
  let newErrors : List (String × String) := []
  let newErrors :=
    if isBlank formData.email then newErrors ++ [("email", "Email is required")]
    else if ¬ emailTest formData.email then newErrors ++ [("email", "Invalid email")]
    else newErrors
  let newErrors :=
    if isBlank formData.password then newErrors ++ [("password", "Password is required")]
    else newErrors
  ⟨newErrors, newErrors.isEmpty⟩

end Signin

namespace Signup

/-- Shape of the `Signup` component `formData`. -/
structure FormData where
  name : String
  email : String
  password : String
deriving Repr, DecidableEq

/-- Validation part of `Signup.handleSubmit`: name non-blank; email non-blank and matching
the regex; password non-blank and at least 6 characters. -/
def handleSubmit (formData : FormData) : SubmitResult :=
  let newErrors : List (String × String) := []
  let newErrors :=
    if isBlank formData.name then newErrors ++ [("name", "Name is required")]
    else newErrors
  let newErrors :=
    if isBlank formData.email then newErrors ++ [("email", "Email is required")]
    else if ¬ emailTest formData.email then newErrors ++ [("email", "Invalid email")]
    else newErrors
  let newErrors :=
    if isBlank formData.password then newErrors ++ [("password", "Password is required")]
    else if formData.password.length < 6 then newErrors ++ [("password", "Min 6 characters")]
    else newErrors
  ⟨newErrors, newErrors.isEmpty⟩

end Signup

namespace InputDemo

/-- Shape of the `InputDemo` component `formData`. -/
structure FormData where
  name : String
  email : String
  password : String
  search : String
  message : String
  website : String
  phone : String
deriving Repr, DecidableEq

/-- Validator `InputDemo.validateForm`: builds `newErrors` (name required; email
required/shaped; password required with a 6-character minimum) and stores
it with `setErrors`.  Only name, email and password are validated. -/
def validateForm (formData : FormData) : List (String × String) :=
  let newErrors : List (String × String) := []
  let newErrors :=
    if isBlank formData.name then newErrors ++ [("name", "Name is required")]
    else newErrors
  let newErrors :=
    if isBlank formData.email then newErrors ++ [("email", "Email is required")]
    else if ¬ emailTest formData.email then newErrors ++ [("email", "Please enter a valid email")]
    else newErrors
  let newErrors :=
    if isBlank formData.password then newErrors ++ [("password", "Password is required")]
    else if formData.password.length < 6 then
      newErrors ++ [("password", "Password must be at least 6 characters")]
    else newErrors
  newErrors

end InputDemo

namespace PasswordInputDemo

/-- Shape of the `PasswordInputDemo` component `passwords` state. -/
structure Passwords where
  basic : String
  withStrength : String
  withIcon : String
  form : String
deriving Repr, DecidableEq

/-- Validator `PasswordInputDemo.validatePasswords`: only the `form` field is
validated — non-blank, at least 8 characters, and the lookahead regex
`/(?=.*[a-z])(?=.*[A-Z])(?=.*\d)/` (contains a lowercase letter, an
uppercase letter and a digit). -/
def validatePasswords (passwords : Passwords) : List (String × String) :=
  let newErrors : List (String × String) := []
  let newErrors :=
    if isBlank passwords.form then newErrors ++ [("form", "Password is required")]
    else if passwords.form.length < 8 then
      newErrors ++ [("form", "Password must be at least 8 characters")]
    else if ¬ (hasLower passwords.form && hasUpper passwords.form && hasDigit passwords.form) then
      newErrors ++ [("form", "Password must contain uppercase, lowercase, and numbers")]
    else newErrors
  newErrors

end PasswordInputDemo

/-! Section: the `Button` control. -/

/-- The `ButtonVariant` union. -/
inductive ButtonVariant
  | primary | secondary | success | danger | warning | info | outline | ghost | link
deriving Repr, DecidableEq

/-- The `Button` configuration surface; the caller-supplied `onClick`
handler is modelled by its presence (`hasOnClick`), and the decorative
slots by theirs. -/
structure ButtonProps where
  variant : ButtonVariant
  size : InputSize
  disabled : Bool
  loading : Bool
  fullWidth : Bool
  leftIcon : Bool
  rightIcon : Bool
  hasOnClick : Bool
deriving Repr, DecidableEq

namespace Button

/-- Guard of `Button.handleClick`: the caller-supplied `onClick` runs iff
`!disabled && !loading && onClick`.  The result is whether the
caller-supplied handler gets invoked by a click. -/
def handleClick (props : ButtonProps) : Bool :=
  !props.disabled && !props.loading && props.hasOnClick

/-- The `disabled` attribute of the rendered `<button>`:
`disabled={disabled || loading}`. -/
def disabledAttr (props : ButtonProps) : Bool :=
  props.disabled || props.loading

/-- What is rendered in the leading position of the button body. -/
inductive Leading
  | spinner | icon | empty
deriving Repr, DecidableEq

/-- The leading decoration: `{loading && <LoadingSpinner />}` followed by
`{!loading && leftIcon && <span>{leftIcon}</span>}` — the spinner when
loading, otherwise the left icon when present, otherwise nothing. -/
def leading (props : ButtonProps) : Leading :=
  if props.loading then Leading.spinner
  else if props.leftIcon then Leading.icon
  else Leading.empty

end Button

/-! Section: theorems. -/

theorem recordGet_set_self (m : List (String × String)) (k v : String) :
    recordGet (recordSet m k v) k = v := by
  induction m with
  | nil => simp [recordSet, recordGet]
  | cons p rest ih =>
    by_cases h : p.1 = k
    · simp [recordSet, recordGet, h]
    · simp [recordSet, recordGet, h, ih]

theorem recordGet_set_ne (m : List (String × String)) (k v k' : String) (h : k' ≠ k) :
    recordGet (recordSet m k v) k' = recordGet m k' := by
  have h' : ¬ (k = k') := fun hh => h hh.symm
  induction m with
  | nil => simp [recordSet, recordGet, h']
  | cons p rest ih =>
    by_cases hp : p.1 = k
    · simp [recordSet, recordGet, hp, h']
    · simp [recordSet, recordGet, hp, ih]

/-- C2: for every field that currently has an error entry in the error
map of a form page, handling a change event on that field (with any new
value) immediately clears the error of exactly that field — the new error
map is computed from the old one alone (no validation runs): the changed
field reads back as error-free, every other field keeps its previous
error, and the values record is updated at just the changed field. -/
theorem handleChange_clears_error (st : FormPageState) (field value : String)
    (h : recordGet st.errors field ≠ "") :
    (handleChange field value st).errors = recordSet st.errors field "" ∧
    recordGet (handleChange field value st).errors field = "" ∧
    (∀ f, f ≠ field → recordGet (handleChange field value st).errors f = recordGet st.errors f) ∧
    recordGet (handleChange field value st).values field = value ∧
    (∀ f, f ≠ field → recordGet (handleChange field value st).values f = recordGet st.values f) := by
  have e : (handleChange field value st).errors = recordSet st.errors field "" := by
    simp [handleChange, h]
  refine ⟨e, ?_, ?_, ?_, ?_⟩
  · rw [e, recordGet_set_self]
  · intro f hf; rw [e, recordGet_set_ne _ _ _ _ hf]
  · exact recordGet_set_self _ _ _
  · intro f hf; exact recordGet_set_ne _ _ _ _ hf

theorem handleChange_clears_error_witness :
    recordGet (handleChange "email" "a"
      ⟨[("email", ""), ("password", "")],
       [("email", "Email is required"), ("password", "Password is required")]⟩).errors "email"
      = "" := by
  have h := handleChange_clears_error
    ⟨[("email", ""), ("password", "")],
     [("email", "Email is required"), ("password", "Password is required")]⟩
    "email" "a" (by decide)
  exact h.2.1

/-- C6: submitting the sign-up form with empty name, empty email and a
3-character non-blank password produces exactly the three error entries
(name, email, password, in that order) and does not report success. -/
theorem signup_submit_three_errors (p : String) (hlen : p.length = 3) (hb : isBlank p = false) :
    (Signup.handleSubmit ⟨"", "", p⟩).newErrors =
      [("name", "Name is required"), ("email", "Email is required"),
       ("password", "Min 6 characters")] ∧
    (Signup.handleSubmit ⟨"", "", p⟩).newErrors.length = 3 ∧
    (Signup.handleSubmit ⟨"", "", p⟩).success = false := by
  have hempty : isBlank "" = true := by decide
  unfold Signup.handleSubmit
  simp [hempty, hb, hlen]

theorem signup_submit_three_errors_witness :
    (Signup.handleSubmit ⟨"", "", "abc"⟩).success = false :=
  (signup_submit_three_errors "abc" (by decide) (by decide)).2.2

/-- C1 (counterexample): the sign-in form has no minimum-length rule at
all.  The non-blank 5-character password "12345" with a well-formed email
yields an empty error map and the success branch runs — no "too short"
message exists in `Signin.handleSubmit`. -/
theorem signin_min_length_counterexample :
    isBlank "12345" = false ∧ "12345".length = 5 ∧
    (Signin.handleSubmit ⟨"john@example.com", "12345"⟩).newErrors = [] ∧
    (Signin.handleSubmit ⟨"john@example.com", "12345"⟩).success = true := by
  decide

/-- C1 (amended): the demo form validator (`InputDemo.validateForm`) and
the sign-up form (`Signup.handleSubmit`) use a 6-character minimum — a
non-blank password of length 5 fails with their too-short message and one
of length 6 passes the minimum-length check; the password-strength-meter
form validator (`PasswordInputDemo.validatePasswords`) uses an
8-character minimum instead, so length 5 and 6 both fail there; and the
sign-in form (`Signin.handleSubmit`) has no minimum-length rule — any
non-blank password produces no password error. -/
theorem password_min_length_rules (p : String) (hb : isBlank p = false) :
    (p.length = 5 →
      recordGet (InputDemo.validateForm ⟨"John", "john@example.com", p, "", "", "", ""⟩)
          "password" = "Password must be at least 6 characters" ∧
      recordGet (Signup.handleSubmit ⟨"John", "john@example.com", p⟩).newErrors
          "password" = "Min 6 characters" ∧
      recordGet (PasswordInputDemo.validatePasswords ⟨"", "", "", p⟩)
          "form" = "Password must be at least 8 characters") ∧
    (p.length = 6 →
      recordGet (InputDemo.validateForm ⟨"John", "john@example.com", p, "", "", "", ""⟩)
          "password" = "" ∧
      recordGet (Signup.handleSubmit ⟨"John", "john@example.com", p⟩).newErrors
          "password" = "" ∧
      recordGet (PasswordInputDemo.validatePasswords ⟨"", "", "", p⟩)
          "form" = "Password must be at least 8 characters") ∧
    recordGet (Signin.handleSubmit ⟨"john@example.com", p⟩).newErrors "password" = "" := by
  have h1 : isBlank "John" = false := by decide
  have h2 : isBlank "john@example.com" = false := by decide
  have h3 : emailTest "john@example.com" = true := by decide
  refine ⟨?_, ?_, ?_⟩
  · intro h5
    refine ⟨?_, ?_, ?_⟩
    · simp [InputDemo.validateForm, h1, h2, h3, hb, h5, recordGet]
    · simp [Signup.handleSubmit, h1, h2, h3, hb, h5, recordGet]
    · simp [PasswordInputDemo.validatePasswords, hb, h5, recordGet]
  · intro h6
    refine ⟨?_, ?_, ?_⟩
    · simp [InputDemo.validateForm, h1, h2, h3, hb, h6, recordGet]
    · simp [Signup.handleSubmit, h1, h2, h3, hb, h6, recordGet]
    · simp [PasswordInputDemo.validatePasswords, hb, h6, recordGet]
  · simp [Signin.handleSubmit, h2, h3, hb, recordGet]

theorem password_min_length_rules_witness :
    recordGet (InputDemo.validateForm ⟨"John", "john@example.com", "12345", "", "", "", ""⟩)
        "password" = "Password must be at least 6 characters" :=
  ((password_min_length_rules "12345" (by decide)).1 (by decide)).1

/-- C9: whenever the `Button` is disabled or loading, a click never
invokes the caller-supplied handler (whatever handler configuration the
caller chose), and when loading the spinner is rendered in the leading
position in place of the left icon. -/
theorem button_click_gating (props : ButtonProps) :
    ((props.disabled = true ∨ props.loading = true) → Button.handleClick props = false) ∧
    (props.loading = true → Button.leading props = Button.Leading.spinner) := by
  constructor
  · rintro (h | h) <;> simp [Button.handleClick, h]
  · intro h; simp [Button.leading, h]

theorem button_click_gating_witness :
    Button.handleClick
        ⟨ButtonVariant.primary, InputSize.md, false, true, false, true, false, true⟩ = false ∧
    Button.leading
        ⟨ButtonVariant.primary, InputSize.md, false, true, false, true, false, true⟩
      = Button.Leading.spinner := by
  have h := button_click_gating
    ⟨ButtonVariant.primary, InputSize.md, false, true, false, true, false, true⟩
  exact ⟨h.1 (Or.inr rfl), h.2 rfl⟩

/-- C7: the kind dispatch of the Field Control renders the multi-line
control exactly for configurations whose tag is textarea and the
single-line control exactly otherwise, whatever the variant, size,
disabled, error, icon and full-width flags are. -/
theorem renderInput_kind_dispatch (props : InputConfig) :
    (renderInput props = RenderedControl.multiLine ↔ props.type = InputKind.textarea) ∧
    (renderInput props = RenderedControl.singleLine ↔ props.type ≠ InputKind.textarea) := by
  unfold renderInput isTextareaProps
  by_cases h : props.type = InputKind.textarea <;> simp [h]

theorem toggle_iterate (n : Nat) :
    Nat.iterate togglePasswordVisibility n false = (n % 2 == 1) := by
  induction n with
  | zero => rfl
  | succ n ih =>
    rw [Function.iterate_succ_apply', ih]
    unfold togglePasswordVisibility
    rcases Nat.mod_two_eq_zero_or_one n with h | h
    · have h2 : (n + 1) % 2 = 1 := by omega
      simp [h, h2]
    · have h2 : (n + 1) % 2 = 0 := by omega
      simp [h, h2]

/-- C5: starting from the initial interaction state (`showPassword`
false), applying the visibility toggle an even number of times leaves the
effective rendered kind of a password field masked, and an odd number of
times makes it plain text — both for the `actualType` computation of
`Input` and for the rendered type of `PasswordInput`, each of which is
recomputed from the toggle state alone. -/
theorem password_toggle_parity (n : Nat) :
    actualType InputKind.password (Nat.iterate togglePasswordVisibility n false)
      = (if n % 2 = 0 then InputKind.password else InputKind.text) ∧
    PasswordInput.renderedType (Nat.iterate togglePasswordVisibility n false)
      = (if n % 2 = 0 then InputKind.password else InputKind.text) := by
  rw [toggle_iterate]
  rcases Nat.mod_two_eq_zero_or_one n with h | h <;>
    simp [h, actualType, PasswordInput.renderedType]

theorem strength_score_eq (p : String) :
    (calculatePasswordStrength p).score = passwordScore p := by
  unfold calculatePasswordStrength
  by_cases h : p = ""
  · subst h; decide
  · rw [if_neg h]
    dsimp only
    split
    · rfl
    · split
      · rfl
      · split <;> rfl

theorem strength_label_eq (p : String) (h : p ≠ "") :
    (calculatePasswordStrength p).label =
      (if passwordScore p < 30 then "Weak"
       else if passwordScore p < 60 then "Fair"
       else if passwordScore p < 80 then "Good"
       else "Strong") := by
  unfold calculatePasswordStrength
  rw [if_neg h]
  dsimp only
  split
  · rfl
  · split
    · rfl
    · split <;> rfl

/-- C3: for every non-empty password the strength score is the sum of a
base 25 when the length is at least 8, a further 10 when the length is at
least 12, and increments 15/15/15/20 for lowercase/uppercase/digit/symbol
presence; the score never exceeds 100; and the label is chosen by the
fixed thresholds 30, 60 and 80. -/
theorem strength_score_formula (p : String) (h : p ≠ "") :
    (calculatePasswordStrength p).score =
      (if p.length ≥ 8 then 25 else 0) + (if p.length ≥ 12 then 10 else 0) +
      (if hasLower p then 15 else 0) + (if hasUpper p then 15 else 0) +
      (if hasDigit p then 15 else 0) + (if hasSymbol p then 20 else 0) ∧
    (calculatePasswordStrength p).score ≤ 100 ∧
    ((calculatePasswordStrength p).score < 30 →
        (calculatePasswordStrength p).label = "Weak") ∧
    (30 ≤ (calculatePasswordStrength p).score → (calculatePasswordStrength p).score < 60 →
        (calculatePasswordStrength p).label = "Fair") ∧
    (60 ≤ (calculatePasswordStrength p).score → (calculatePasswordStrength p).score < 80 →
        (calculatePasswordStrength p).label = "Good") ∧
    (80 ≤ (calculatePasswordStrength p).score →
        (calculatePasswordStrength p).label = "Strong") := by
  have hs := strength_score_eq p
  have hl := strength_label_eq p h
  have hbound : passwordScore p ≤ 100 := by
    unfold passwordScore
    have b1 : (if p.length ≥ 8 then 25 else 0) ≤ 25 := by split <;> omega
    have b2 : (if p.length ≥ 12 then 10 else 0) ≤ 10 := by split <;> omega
    have b3 : (if hasLower p then 15 else 0) ≤ 15 := by split <;> omega
    have b4 : (if hasUpper p then 15 else 0) ≤ 15 := by split <;> omega
    have b5 : (if hasDigit p then 15 else 0) ≤ 15 := by split <;> omega
    have b6 : (if hasSymbol p then 20 else 0) ≤ 20 := by split <;> omega
    omega
  refine ⟨by rw [hs]; rfl, by rw [hs]; exact hbound, ?_, ?_, ?_, ?_⟩
  · intro hlt; rw [hs] at hlt; rw [hl, if_pos hlt]
  · intro h30 h60; rw [hs] at h30 h60
    rw [hl, if_neg (by omega), if_pos h60]
  · intro h60 h80; rw [hs] at h60 h80
    rw [hl, if_neg (by omega), if_neg (by omega), if_pos h80]
  · intro h80; rw [hs] at h80
    rw [hl, if_neg (by omega), if_neg (by omega), if_neg (by omega)]

theorem strength_score_formula_witness :
    (calculatePasswordStrength "a").label = "Weak" :=
  (strength_score_formula "a" (by decide)).2.2.1 (by decide)

theorem ite_mono_of_imp {c d : Prop} [Decidable c] [Decidable d] (h : c → d) (k : Nat) :
    (if c then k else 0) ≤ (if d then k else 0) := by
  by_cases hc : c
  · rw [if_pos hc, if_pos (h hc)]
  · rw [if_neg hc]; exact Nat.zero_le _

/-- C4: the strength score is monotone in the set of satisfied
conditions: if every condition (length at least 8, length at least 12,
has-lowercase, has-uppercase, has-digit, has-symbol) satisfied by `p` is
also satisfied by `q`, then the score of `p` is at most the score of
`q`. -/
theorem strength_score_monotone (p q : String)
    (h8 : p.length ≥ 8 → q.length ≥ 8)
    (h12 : p.length ≥ 12 → q.length ≥ 12)
    (hlo : hasLower p = true → hasLower q = true)
    (hup : hasUpper p = true → hasUpper q = true)
    (hdi : hasDigit p = true → hasDigit q = true)
    (hsy : hasSymbol p = true → hasSymbol q = true) :
    (calculatePasswordStrength p).score ≤ (calculatePasswordStrength q).score := by
  rw [strength_score_eq, strength_score_eq]
  unfold passwordScore
  have c1 := ite_mono_of_imp h8 25
  have c2 := ite_mono_of_imp h12 10
  have c3 := ite_mono_of_imp hlo 15
  have c4 := ite_mono_of_imp hup 15
  have c5 := ite_mono_of_imp hdi 15
  have c6 := ite_mono_of_imp hsy 20
  omega

theorem strength_score_monotone_witness :
    (calculatePasswordStrength "ab").score ≤ (calculatePasswordStrength "ab1").score :=
  strength_score_monotone "ab" "ab1" (by decide) (by decide) (by decide) (by decide)
    (by decide) (by decide)

/-- C10: the strength estimator returns score 0 with empty label and
color on the empty string; on every non-empty password it returns a score
of at least 15 and one of the four labels, because every character falls
into at least one of the four character classes so at least one increment
applies. -/
theorem strength_empty_and_nonempty_bounds :
    calculatePasswordStrength "" = ⟨0, "", ""⟩ ∧
    ∀ p : String, p ≠ "" →
      15 ≤ (calculatePasswordStrength p).score ∧
      ((calculatePasswordStrength p).label = "Weak" ∨
       (calculatePasswordStrength p).label = "Fair" ∨
       (calculatePasswordStrength p).label = "Good" ∨
       (calculatePasswordStrength p).label = "Strong") := by
  refine ⟨by decide, ?_⟩
  intro p hp
  have hd : p.data ≠ [] := by
    intro hnil
    apply hp
    cases p with
    | mk l => simp only at hnil; subst hnil; decide
  obtain ⟨c, rest, hc⟩ := List.exists_cons_of_ne_nil hd
  have hclass : hasLower p = true ∨ hasUpper p = true ∨ hasDigit p = true ∨
      hasSymbol p = true := by
    by_cases h1 : ('a' ≤ c && c ≤ 'z') = true
    · exact Or.inl (by unfold hasLower; rw [hc]; simp [h1])
    · by_cases h2 : ('A' ≤ c && c ≤ 'Z') = true
      · exact Or.inr (Or.inl (by unfold hasUpper; rw [hc]; simp [h2]))
      · by_cases h3 : ('0' ≤ c && c ≤ '9') = true
        · exact Or.inr (Or.inr (Or.inl (by unfold hasDigit; rw [hc]; simp [h3])))
        · refine Or.inr (Or.inr (Or.inr ?_))
          have h1' := Bool.eq_false_iff.mpr h1
          have h2' := Bool.eq_false_iff.mpr h2
          have h3' := Bool.eq_false_iff.mpr h3
          have hf : (!(('a' ≤ c && c ≤ 'z') || ('A' ≤ c && c ≤ 'Z') ||
              ('0' ≤ c && c ≤ '9'))) = true := by
            rw [h1', h2', h3']; rfl
          unfold hasSymbol
          rw [hc, List.any_cons]
          refine (Bool.or_eq_true _ _).mpr (Or.inl ?_)
          exact hf
  have hge : 15 ≤ passwordScore p := by
    unfold passwordScore
    rcases hclass with h | h | h | h <;> simp [h] <;> omega
  refine ⟨by rw [strength_score_eq]; exact hge, ?_⟩
  rw [strength_label_eq p hp]
  split
  · exact Or.inl rfl
  · split
    · exact Or.inr (Or.inl rfl)
    · split
      · exact Or.inr (Or.inr (Or.inl rfl))
      · exact Or.inr (Or.inr (Or.inr rfl))

theorem strength_empty_and_nonempty_bounds_witness :
    15 ≤ (calculatePasswordStrength "a").score :=
  (strength_empty_and_nonempty_bounds.2 "a" (by decide)).1

theorem finalSeg_iff (l : List Char) :
    finalSeg l = true ↔ ∃ c rest, l = c :: rest ∧ isNonSpace c = true := by
  cases l with
  | nil =>
    constructor
    · intro h; exact (Bool.false_ne_true h).elim
    · rintro ⟨c, r, he, _⟩; exact List.noConfusion he
  | cons c rest =>
    constructor
    · intro h; exact ⟨c, rest, rfl, h⟩
    · rintro ⟨c', r', he, h⟩; cases he; exact h

theorem dotTail_iff (l : List Char) :
    dotTail l = true ↔
      ∃ y rest, l = y ++ '.' :: rest ∧ allNonSpace y ∧ finalSeg rest = true := by
  induction l with
  | nil =>
    constructor
    · intro h; exact (Bool.false_ne_true h).elim
    · rintro ⟨y, rest, he, -, -⟩
      cases y with
      | nil => exact List.noConfusion he
      | cons d y' => exact List.noConfusion he
  | cons c t ih =>
    constructor
    · intro h
      simp only [dotTail, Bool.or_eq_true, Bool.and_eq_true, beq_iff_eq] at h
      rcases h with ⟨hdot, hfin⟩ | ⟨hns, hdt⟩
      · refine ⟨[], t, ?_, ?_, hfin⟩
        · rw [List.nil_append, hdot]
        · intro d hd; exact absurd hd (List.not_mem_nil d)
      · obtain ⟨y, rest, he, hy, hf⟩ := ih.mp hdt
        refine ⟨c :: y, rest, ?_, ?_, hf⟩
        · rw [List.cons_append, he]
        · intro d hd
          rcases List.mem_cons.mp hd with h' | h'
          · rw [h']; exact hns
          · exact hy d h'
    · rintro ⟨y, rest, he, hy, hf⟩
      cases y with
      | nil =>
        rw [List.nil_append] at he
        injection he with h1 h2
        subst h2
        simp [dotTail, h1, hf]
      | cons d y' =>
        rw [List.cons_append] at he
        injection he with h1 h2
        have hdt : dotTail t = true :=
          ih.mpr ⟨y', rest, h2, fun e he' => hy e (List.mem_cons_of_mem d he'), hf⟩
        have hcn : isNonSpace c = true := by
          rw [h1]; exact hy d (List.mem_cons_self d y')
        simp [dotTail, hcn, hdt]

theorem afterAt_iff (l : List Char) :
    afterAt l = true ↔
      ∃ y rest, l = y ++ '.' :: rest ∧ y ≠ [] ∧ allNonSpace y ∧ finalSeg rest = true := by
  cases l with
  | nil =>
    constructor
    · intro h; exact (Bool.false_ne_true h).elim
    · rintro ⟨y, rest, he, -, -, -⟩
      cases y with
      | nil => exact List.noConfusion he
      | cons d y' => exact List.noConfusion he
  | cons c t =>
    constructor
    · intro h
      simp only [afterAt, Bool.and_eq_true] at h
      obtain ⟨y, rest, he, hy, hf⟩ := (dotTail_iff t).mp h.2
      refine ⟨c :: y, rest, by rw [List.cons_append, he], List.cons_ne_nil c y, ?_, hf⟩
      intro d hd
      rcases List.mem_cons.mp hd with h' | h'
      · rw [h']; exact h.1
      · exact hy d h'
    · rintro ⟨y, rest, he, hne, hy, hf⟩
      cases y with
      | nil => exact absurd rfl hne
      | cons d y' =>
        rw [List.cons_append] at he
        injection he with h1 h2
        have hdt : dotTail t = true :=
          (dotTail_iff t).mpr ⟨y', rest, h2, fun e he' => hy e (List.mem_cons_of_mem d he'), hf⟩
        have hcn : isNonSpace c = true := by
          rw [h1]; exact hy d (List.mem_cons_self d y')
        simp [afterAt, hcn, hdt]

theorem atTail_iff (l : List Char) :
    atTail l = true ↔
      ∃ x rest, l = x ++ '@' :: rest ∧ allNonSpace x ∧ afterAt rest = true := by
  induction l with
  | nil =>
    constructor
    · intro h; exact (Bool.false_ne_true h).elim
    · rintro ⟨x, rest, he, -, -⟩
      cases x with
      | nil => exact List.noConfusion he
      | cons d x' => exact List.noConfusion he
  | cons c t ih =>
    constructor
    · intro h
      simp only [atTail, Bool.or_eq_true, Bool.and_eq_true, beq_iff_eq] at h
      rcases h with ⟨hat, haf⟩ | ⟨hns, hdt⟩
      · refine ⟨[], t, ?_, ?_, haf⟩
        · rw [List.nil_append, hat]
        · intro d hd; exact absurd hd (List.not_mem_nil d)
      · obtain ⟨x, rest, he, hx, hf⟩ := ih.mp hdt
        refine ⟨c :: x, rest, ?_, ?_, hf⟩
        · rw [List.cons_append, he]
        · intro d hd
          rcases List.mem_cons.mp hd with h' | h'
          · rw [h']; exact hns
          · exact hx d h'
    · rintro ⟨x, rest, he, hx, hf⟩
      cases x with
      | nil =>
        rw [List.nil_append] at he
        injection he with h1 h2
        subst h2
        simp [atTail, h1, hf]
      | cons d x' =>
        rw [List.cons_append] at he
        injection he with h1 h2
        have hdt : atTail t = true :=
          ih.mpr ⟨x', rest, h2, fun e he' => hx e (List.mem_cons_of_mem d he'), hf⟩
        have hcn : isNonSpace c = true := by
          rw [h1]; exact hx d (List.mem_cons_self d x')
        simp [atTail, hcn, hdt]

theorem wholePattern_iff (l : List Char) :
    wholePattern l = true ↔
      ∃ x rest, l = x ++ '@' :: rest ∧ x ≠ [] ∧ allNonSpace x ∧ afterAt rest = true := by
  cases l with
  | nil =>
    constructor
    · intro h; exact (Bool.false_ne_true h).elim
    · rintro ⟨x, rest, he, -, -, -⟩
      cases x with
      | nil => exact List.noConfusion he
      | cons d x' => exact List.noConfusion he
  | cons c t =>
    constructor
    · intro h
      simp only [wholePattern, Bool.and_eq_true] at h
      obtain ⟨x, rest, he, hx, hf⟩ := (atTail_iff t).mp h.2
      refine ⟨c :: x, rest, by rw [List.cons_append, he], List.cons_ne_nil c x, ?_, hf⟩
      intro d hd
      rcases List.mem_cons.mp hd with h' | h'
      · rw [h']; exact h.1
      · exact hx d h'
    · rintro ⟨x, rest, he, hne, hx, hf⟩
      cases x with
      | nil => exact absurd rfl hne
      | cons d x' =>
        rw [List.cons_append] at he
        injection he with h1 h2
        have hdt : atTail t = true :=
          (atTail_iff t).mpr ⟨x', rest, h2, fun e he' => hx e (List.mem_cons_of_mem d he'), hf⟩
        have hcn : isNonSpace c = true := by
          rw [h1]; exact hx d (List.mem_cons_self d x')
        simp [wholePattern, hcn, hdt]

theorem emailSearch_iff (l : List Char) :
    emailSearch l = true ↔ ∃ a m, l = a ++ m ∧ wholePattern m = true := by
  induction l with
  | nil =>
    constructor
    · intro h; exact (Bool.false_ne_true h).elim
    · rintro ⟨a, m, he, hw⟩
      cases a with
      | nil =>
        cases m with
        | nil => exact (Bool.false_ne_true hw).elim
        | cons d m' => exact List.noConfusion he
      | cons d a' => exact List.noConfusion he
  | cons c t ih =>
    constructor
    · intro h
      simp only [emailSearch, Bool.or_eq_true] at h
      rcases h with h | h
      · exact ⟨[], c :: t, rfl, h⟩
      · obtain ⟨a, m, he, hw⟩ := ih.mp h
        exact ⟨c :: a, m, by rw [List.cons_append, he], hw⟩
    · rintro ⟨a, m, he, hw⟩
      cases a with
      | nil =>
        rw [List.nil_append] at he
        simp only [emailSearch, Bool.or_eq_true]
        left
        rw [he]; exact hw
      | cons d a' =>
        rw [List.cons_append] at he
        injection he with h1 h2
        simp only [emailSearch, Bool.or_eq_true]
        right
        exact ih.mpr ⟨a', m, h2, hw⟩

theorem emailTest_iff_matches (s : String) :
    emailTest s = true ↔ matchesEmailPattern s := by
  unfold emailTest matchesEmailPattern
  rw [emailSearch_iff s.data]
  constructor
  · rintro ⟨a, m, he, hw⟩
    obtain ⟨x, rest, hm, hx, hxs, hA⟩ := (wholePattern_iff m).mp hw
    obtain ⟨y, rest2, hr, hy, hys, hF⟩ := (afterAt_iff rest).mp hA
    obtain ⟨c, rest3, hr2, hc⟩ := (finalSeg_iff rest2).mp hF
    refine ⟨a, x, y, [c], rest3, ?_, hx, hy, List.cons_ne_nil c [], hxs, hys, ?_⟩
    · rw [he, hm, hr, hr2]
      simp [List.append_assoc]
    · intro d hd
      rcases List.mem_cons.mp hd with h' | h'
      · rw [h']; exact hc
      · exact absurd h' (List.not_mem_nil d)
  · rintro ⟨a, x, y, z, b, he, hx, hy, hz, hxs, hys, hzs⟩
    refine ⟨a, x ++ '@' :: (y ++ '.' :: (z ++ b)), by rw [he]; simp [List.append_assoc], ?_⟩
    refine (wholePattern_iff _).mpr ⟨x, y ++ '.' :: (z ++ b), rfl, hx, hxs, ?_⟩
    refine (afterAt_iff _).mpr ⟨y, z ++ b, rfl, hy, hys, ?_⟩
    refine (finalSeg_iff _).mpr ?_
    cases z with
    | nil => exact absurd rfl hz
    | cons c z' =>
      exact ⟨c, z' ++ b, by rw [List.cons_append], hzs c (List.mem_cons_self c z')⟩

/-- C8: the email-shape check accepts "john@example.com" and rejects
"john" (shown both on the raw regex test and through the sign-in
validator); and for every non-blank email value the validator records no
email error exactly when the value matches the email pattern: some
non-space characters, an at sign, some non-space characters, a dot, and
some non-space characters. -/
theorem email_shape_check :
    emailTest "john@example.com" = true ∧
    emailTest "john" = false ∧
    recordGet (Signin.handleSubmit ⟨"john@example.com", "secret"⟩).newErrors "email" = "" ∧
    recordGet (Signin.handleSubmit ⟨"john", "secret"⟩).newErrors "email" = "Invalid email" ∧
    (∀ email, emailTest email = true ↔ matchesEmailPattern email) ∧
    (∀ email password, isBlank email = false →
      (recordGet (Signin.handleSubmit ⟨email, password⟩).newErrors "email" = "" ↔
        matchesEmailPattern email)) := by
  refine ⟨by decide, by decide, by decide, by decide, fun email => emailTest_iff_matches email, ?_⟩
  intro email password hb
  rw [← emailTest_iff_matches email]
  unfold Signin.handleSubmit
  by_cases ht : emailTest email = true
  · simp only [hb, ht]
    by_cases hp : isBlank password
    · simp [hp, recordGet, ht]
    · simp [hp, recordGet, ht]
  · have ht' : emailTest email = false := Bool.eq_false_iff.mpr ht
    simp only [hb, ht']
    by_cases hp : isBlank password
    · simp [hp, recordGet, ht']
    · simp [hp, recordGet, ht']

theorem email_shape_check_witness : matchesEmailPattern "john@example.com" :=
  (email_shape_check.2.2.2.2.2 "john@example.com" "x" (by decide)).mp (by decide)
